import Mathlib

/-!
# Verification of the 3D object tracking core (camFusion_Student.cpp)

Shallow embedding of the estimation/association engine:
`clusterLidarWithROI`, `matchBoundingBoxes`, `clusterKptMatchesWithROI`,
`computeTTCCamera`, `clustering` and `computeTTCLidar`.

Conventions of the embedding:
* C++ `double`/`float` arithmetic is modelled by exact rational arithmetic
  (`ℚ`); IEEE special values are modelled explicitly (`TTCVal.nan`,
  `TTCVal.inf`, and `Option` for values whose computation is an
  out-of-bounds access or other undefined behaviour).
* `cv::norm` (a Euclidean length, irrational in general) is modelled by
  `ratNorm2`, which is exact whenever the true length is rational; every
  concrete input used below is chosen so that all lengths are rational.
* A C++ `double`-to-`int` conversion truncates toward zero (`truncQ`);
  the `cv::Point2f` to `cv::Point2i` conversion rounds to nearest
  (`roundQ`).
-/

namespace TrackingCore

/-- `cv::KeyPoint::pt`: a 2D pixel location. -/
structure KeyPt where
  x : ℚ
  y : ℚ
deriving DecidableEq

/-- `cv::DMatch`: a pair of keypoint indices (previous frame = `queryIdx`,
current frame = `trainIdx`). -/
structure Match where
  queryIdx : Nat
  trainIdx : Nat
deriving DecidableEq

/-- `LidarPoint` from dataStructures.h: 3D coordinates plus reflectivity. -/
structure LidarPoint where
  x : ℚ
  y : ℚ
  z : ℚ
  r : ℚ
deriving DecidableEq

/-- `cv::Rect` (integer rectangle). -/
structure Rect where
  x : ℤ
  y : ℤ
  width : ℤ
  height : ℤ
deriving DecidableEq

/-- `BoundingBox` from dataStructures.h (the fields this core touches). -/
structure BoundingBox where
  boxID : ℤ
  roi : Rect
  lidarPoints : List LidarPoint
  kptMatches : List Match
deriving DecidableEq

/-- The value of a `double` output slot: a real (rational) value, or one of
the IEEE special values the code produces (`NAN`, `INFINITY`, `-INFINITY`). -/
inductive TTCVal where
  | nan : TTCVal
  | inf : TTCVal
  | ninf : TTCVal
  | val : ℚ → TTCVal
deriving DecidableEq

/-- Truncation toward zero, the C++ `double`-to-`int` conversion. -/
def truncQ (q : ℚ) : ℤ :=
  q.num.sign * ((q.num.natAbs / q.den : ℕ) : ℤ)

/-- Rounding to nearest, the `cv::saturate_cast` used when a `cv::Point2f`
is converted to an integer `cv::Point`. -/
def roundQ (q : ℚ) : ℤ :=
  ⌊q + 1 / 2⌋

/-- Bit length of a natural number, with an explicit fuel argument so the
recursion is structural (the fuel is an upper bound; the recursion stops
after about `log2 n` steps). -/
def bitLenGo : Nat → Nat → Nat
  | 0, _ => 0
  | fuel + 1, n => if n = 0 then 0 else bitLenGo fuel (n / 2) + 1

/-- Bit length of a natural number. -/
def bitLen (n : Nat) : Nat := bitLenGo n n

/-- Digit-by-digit integer square root: try to set each bit of the result,
from the most significant downward. -/
def isqrtGo (n : Nat) : Nat → Nat → Nat
  | 0, acc => acc
  | fuel + 1, acc =>
      let cand := acc + 2 ^ fuel
      if cand * cand ≤ n then isqrtGo n fuel cand else isqrtGo n fuel acc

/-- Integer square root (structural recursion, so it reduces inside the
kernel, unlike `Nat.sqrt`). -/
def isqrt (n : Nat) : Nat := isqrtGo n (bitLen n) 0

/-- Rational square root, exact on squares of rationals: for `q = (a/b)^2`
in lowest terms, `ratSqrt q = a/b`.  Models the real-valued square root of
`cv::norm`; every concrete input below has rational pairwise distances, so
`ratSqrt` is exact there. -/
def ratSqrt (q : ℚ) : ℚ :=
  (isqrt q.num.toNat : ℚ) / (isqrt q.den : ℚ)

/-- `cv::norm(a.pt - b.pt)` for two keypoints. -/
def ratNorm2 (a b : KeyPt) : ℚ :=
  ratSqrt ((a.x - b.x) ^ 2 + (a.y - b.y) ^ 2)

/-- `std::numeric_limits<double>::epsilon()`. -/
def dblEpsilon : ℚ := 1 / 2 ^ 52

/-! ## Camera TTC estimator (`computeTTCCamera`, lines 173-228) -/

/-- One iteration of the inner pair loop (lines 188-203): look up the four
keypoints (`.at` would throw on a bad index: `none`), then either record
`distCurr / distPrev` or skip the pair.  `some none` means the pair was
inspected and filtered out; `some (some r)` means the ratio `r` was
recorded. -/
def pairQuot (kp kc : List KeyPt) (a b : Match) : Option (Option ℚ) :=
  match kc[a.trainIdx]?, kp[a.queryIdx]?, kc[b.trainIdx]?, kp[b.queryIdx]? with
  | some oc, some op, some ic, some ip =>
      let distCurr := ratNorm2 oc ic
      let distPrev := ratNorm2 op ip
      some (if dblEpsilon < distPrev ∧ 100 ≤ distCurr
            then some (distCurr / distPrev) else none)
  | _, _, _, _ => none

/-- `distRatios.push_back` step for the ordered index pair `(i, j)`. -/
def pushQuot (kp kc : List KeyPt) (ms : List Match) (i j : Nat)
    (acc : List ℚ) : Option (List ℚ) := do
  let a ← ms[i]?
  let b ← ms[j]?
  match pairQuot kp kc a b with
  | none => none
  | some none => some acc
  | some (some r) => some (acc ++ [r])

/-- The distance-ratio collection loop (lines 177-205).  The outer iterator
runs over positions `0 .. n-2` (bound `kptMatches.end() - 1`), the inner
iterator restarts at `kptMatches.begin() + 1` for every outer position, so
it runs over `1 .. n-1` independently of the outer position.  On an empty
match list `kptMatches.end() - 1` underflows and the first dereference is
undefined behaviour (`none`). -/
def distQuotList (kp kc : List KeyPt) (ms : List Match) : Option (List ℚ) :=
  match ms with
  | [] => none
  | _ :: _ =>
      (List.range (ms.length - 1)).foldlM
        (fun acc i =>
          ((List.range (ms.length - 1)).map (· + 1)).foldlM
            (fun acc2 j => pushQuot kp kc ms i j acc2) acc)
        []

/-- The median selection of lines 216-218, applied to the sorted ratio
list: `medianIdx = floor(size / 2)`; if `medianIdx` (not the size!) is
even, average entries `medianIdx - 1` and `medianIdx`, else take entry
`medianIdx`.  For a single ratio this reads `distRatios[-1]`, an
out-of-bounds access (`none`). -/
def medianSelect (rs : List ℚ) : Option ℚ :=
  let medianIdx := rs.length / 2
  if medianIdx % 2 = 0 then
    if medianIdx = 0 then none
    else
      match rs[medianIdx - 1]?, rs[medianIdx]? with
      | some a, some b => some ((a + b) / 2)
      | _, _ => none
  else rs[medianIdx]?

/-- The median as the specification describes it (for a sorted list):
even count averages the two central values, odd count takes the single
central value. -/
def specMedian (rs : List ℚ) : Option ℚ :=
  if rs.length = 0 then none
  else if rs.length % 2 = 0 then
    match rs[rs.length / 2 - 1]?, rs[rs.length / 2]? with
    | some a, some b => some ((a + b) / 2)
    | _, _ => none
  else rs[rs.length / 2]?

/-- `computeTTCCamera` (lines 173-228): collect the distance ratios, return
`NAN` if none survived, otherwise sort, select the (allegedly) median
ratio, and convert it to a TTC. -/
def computeTTCCamera (kp kc : List KeyPt) (ms : List Match)
    (frameRate : ℚ) : Option TTCVal := do
  let rs ← distQuotList kp kc ms
  if rs.length = 0 then
    pure TTCVal.nan
  else
    match medianSelect (List.insertionSort (· ≤ ·) rs) with
    | none => none
    | some r =>
        let dT := 1 / frameRate
        if r ≠ 1 then pure (TTCVal.val (-dT / (1 - r))) else pure TTCVal.inf

/-- The number of unordered index pairs `i < j` that pass the survival
thresholds; stated from the specification's words, for comparison with what
the code records. -/
def specSurvivorPairCount (kp kc : List KeyPt) (ms : List Match) : Nat :=
  ((List.range ms.length).flatMap
      (fun i => (List.range ms.length).map (fun j => (i, j)))).countP
    (fun ij =>
      decide (ij.1 < ij.2) &&
        match ms[ij.1]?, ms[ij.2]? with
        | some a, some b =>
            match pairQuot kp kc a b with
            | some (some _) => true
            | _ => false
        | _, _ => false)

/-- The ordered index pairs the ratio loop actually enumerates: outer
position `i` over `0 .. n-2`, inner position over `1 .. n-1`
(independently of `i`). -/
def orderedPairIdx (n : Nat) : List (Nat × Nat) :=
  (List.range (n - 1)).flatMap
    (fun i => (List.range (n - 1)).map (fun j => (i, j + 1)))

/-- The ratio recorded for one ordered index pair, if any: `none` both for
pairs filtered out by the thresholds and for pairs whose lookups fail
(the latter cannot occur on a run that completed normally). -/
def pairRecord (kp kc : List KeyPt) (ms : List Match) (ij : Nat × Nat) :
    Option ℚ :=
  match ms[ij.1]?, ms[ij.2]? with
  | some a, some b => (pairQuot kp kc a b).bind id
  | _, _ => none

/-! ### Concrete fixtures

Keypoints for the concrete runs are placed on the x-axis, so every pairwise
`cv::norm` distance is the rational `|dx|` and `ratNorm2` is exact. -/

/-- C6 fixture, previous-frame keypoints. -/
def c6PrevKpts : List KeyPt := [⟨0, 0⟩, ⟨100, 0⟩, ⟨100, 0⟩]

/-- C6 fixture, current-frame keypoints. -/
def c6CurrKpts : List KeyPt := [⟨0, 0⟩, ⟨200, 0⟩, ⟨400, 0⟩]

/-- C6 fixture, matches (identity index pairing). -/
def c6Matches : List Match := [⟨0, 0⟩, ⟨1, 1⟩, ⟨2, 2⟩]

/-- C5 fixture, previous-frame keypoints. -/
def c5PrevKpts : List KeyPt := [⟨0, 0⟩, ⟨100, 0⟩, ⟨200, 0⟩, ⟨300, 0⟩]

/-- C5 fixture, current-frame keypoints. -/
def c5CurrKpts : List KeyPt := [⟨0, 0⟩, ⟨200, 0⟩, ⟨400, 0⟩, ⟨600, 0⟩]

/-- C5 fixture, matches (identity index pairing). -/
def c5Matches : List Match := [⟨0, 0⟩, ⟨1, 1⟩, ⟨2, 2⟩, ⟨3, 3⟩]

/-! ## Keypoint-match region filter (`clusterKptMatchesWithROI`,
lines 132-169) -/

/-- `cv::Rect::contains` applied to a `cv::Point2f`: the float point is
first converted to an integer `cv::Point` (rounding to nearest), then the
half-open containment test `x <= px < x + width`, `y <= py < y + height`
runs. -/
def roiContainsKp (r : Rect) (p : KeyPt) : Bool :=
  decide (r.x ≤ roundQ p.x) && decide (roundQ p.x < r.x + r.width) &&
    decide (r.y ≤ roundQ p.y) && decide (roundQ p.y < r.y + r.height)

/-- Membership pass (lines 134-141): append to the box's match collection
every match whose current-frame keypoint lies inside the (unshrunk) ROI.
`kptsCurr[match.trainIdx]` is an unchecked access: out of range is
undefined behaviour (`none`). -/
def kptMatchesInROI (box : BoundingBox) (kc : List KeyPt)
    (ms : List Match) : Option (List Match) :=
  ms.foldlM
    (fun acc m =>
      match kc[m.trainIdx]? with
      | none => none
      | some p => some (if roiContainsKp box.roi p then acc ++ [m] else acc))
    box.kptMatches

/-- Lines 147-149 and 156-158: `cv::norm(kpCurr.pt - kpPrev.pt)` with
bounds-checked `.at` lookups (`none` models the thrown exception). -/
def matchDistance (kp kc : List KeyPt) (m : Match) : Option ℚ := do
  let c ← kc[m.trainIdx]?
  let p ← kp[m.queryIdx]?
  pure (ratNorm2 c p)

/-- Lines 143-152: distance sum and mean.  The outer `none` is a failed
lookup; the inner `none` is the `0/0 = NaN` mean of an empty collection
(`sum / boundingBox.kptMatches.size()` with size zero). -/
def meanMatchDistance (kp kc : List KeyPt) (ms : List Match) :
    Option (Option ℚ) := do
  let ds ← ms.mapM (matchDistance kp kc)
  pure (if ms.length = 0 then none else some (ds.sum / (ms.length : ℚ)))

/-- The outlier-erase loop of lines 154-168, from iterator position `i`.
The loop condition is `it <= kptMatches.end()`, so the body also runs when
`it` equals the end iterator, dereferencing it — an out-of-bounds read
(`none`).  The comparison `distance >= mean * 1.5` against a `NaN` mean
(`mean = none`) is false, so that branch keeps the element. -/
def erasePass (kp kc : List KeyPt) (mean : Option ℚ) (ms : List Match)
    (i : Nat) : Option (List Match) :=
  if h : i < ms.length then
    match matchDistance kp kc (ms.get ⟨i, h⟩) with
    | none => none
    | some d =>
      match mean with
      | some mv =>
          if mv * (3 / 2) ≤ d then erasePass kp kc mean (ms.eraseIdx i) i
          else erasePass kp kc mean ms (i + 1)
      | none => erasePass kp kc none ms (i + 1)
  else if i = ms.length then none
  else some ms
termination_by ms.length - i + ms.length
decreasing_by
  · have : (ms.eraseIdx i).length = ms.length - 1 := by
      rw [List.length_eraseIdx]; simp [h]
    omega
  · omega
  · omega

/-- `clusterKptMatchesWithROI` (lines 132-169): membership pass, mean
distance, then the in-place outlier-erase loop starting at `begin()`. -/
def clusterKptMatchesWithROI (box : BoundingBox) (kp kc : List KeyPt)
    (ms : List Match) : Option (List Match) := do
  let assigned ← kptMatchesInROI box kc ms
  let mean ← meanMatchDistance kp kc assigned
  erasePass kp kc mean assigned 0

/-- C4 fixture: a box whose ROI contains no current keypoint. -/
def c4Box : BoundingBox := ⟨0, ⟨0, 0, 10, 10⟩, [], []⟩

/-- C4 fixture, previous-frame keypoints. -/
def c4PrevKpts : List KeyPt := [⟨0, 0⟩]

/-- C4 fixture, current-frame keypoints (outside the ROI). -/
def c4CurrKpts : List KeyPt := [⟨50, 50⟩]

/-- C4 fixture, matches. -/
def c4Matches : List Match := [⟨0, 0⟩]

/-! ## Region correspondence resolver (`matchBoundingBoxes`,
lines 313-358) -/

/-- One vote into a `std::map<int, int>` held as a key-sorted association
list: `m[boxID]++`, creating the entry with count 1 if absent. -/
def voteInsert : List (ℤ × Nat) → ℤ → List (ℤ × Nat)
  | [], k => [(k, 1)]
  | (a, c) :: rest, k =>
      if k < a then (k, 1) :: (a, c) :: rest
      else if k = a then (a, c + 1) :: rest
      else (a, c) :: voteInsert rest k

/-- The vote table built for one previous-frame box (lines 323-347): for
every current-frame box, for every match, if the previous-frame keypoint
lies in the previous box's ROI and the current-frame keypoint lies in the
current box's ROI, increment that current box ID's vote.  The keypoint
accesses are unchecked `operator[]` (`none` on out of range). -/
def votesForBox (prevBox : BoundingBox) (currBoxes : List BoundingBox)
    (kpPrev kpCurr : List KeyPt) (mList : List Match) :
    Option (List (ℤ × Nat)) :=
  currBoxes.foldlM
    (fun m cb =>
      mList.foldlM
        (fun m2 mt =>
          match kpPrev[mt.queryIdx]? with
          | none => none
          | some pk =>
            if roiContainsKp prevBox.roi pk then
              match kpCurr[mt.trainIdx]? with
              | none => none
              | some ck =>
                if roiContainsKp cb.roi ck then some (voteInsert m2 cb.boxID)
                else some m2
            else some m2)
        m)
    []

/-- `std::max_element` over the vote table with comparator
`a.second < b.second`: the first entry, in key order, holding the maximal
count.  On an empty map it returns the end iterator, and line 350
dereferences it — undefined behaviour (`none`). -/
def firstMaxVote : List (ℤ × Nat) → Option ℤ
  | [] => none
  | x :: rest =>
      some (rest.foldl (fun best y => if best.2 < y.2 then y else best) x).1

/-- `bbBestMatches[prevID] = bestID` on a key-sorted association list. -/
def bestInsert : List (ℤ × ℤ) → ℤ → ℤ → List (ℤ × ℤ)
  | [], k, v => [(k, v)]
  | (a, c) :: rest, k, v =>
      if k < a then (k, v) :: (a, c) :: rest
      else if k = a then (a, v) :: rest
      else (a, c) :: bestInsert rest k v

/-- The loop over previous-frame boxes (lines 321-357): build the vote
table, pick the best current box, record it. -/
def matchBoundingBoxesGo (mList : List Match)
    (currBoxes : List BoundingBox) (kpPrev kpCurr : List KeyPt)
    (acc : List (ℤ × ℤ)) : List BoundingBox → Option (List (ℤ × ℤ))
  | [] => some acc
  | pb :: rest =>
      match votesForBox pb currBoxes kpPrev kpCurr mList with
      | none => none
      | some m =>
        match firstMaxVote m with
        | none => none
        | some best =>
            matchBoundingBoxesGo mList currBoxes kpPrev kpCurr
              (bestInsert acc pb.boxID best) rest

/-- `matchBoundingBoxes` (lines 313-358). -/
def matchBoundingBoxes (mList : List Match)
    (prevBoxes currBoxes : List BoundingBox)
    (kpPrev kpCurr : List KeyPt) : Option (List (ℤ × ℤ)) :=
  matchBoundingBoxesGo mList currBoxes kpPrev kpCurr [] prevBoxes

/-- C2 fixture: a previous-frame box that collects no votes. -/
def c2Box : BoundingBox := ⟨3, ⟨0, 0, 20, 20⟩, [], []⟩

/-! ## Geometric projector and range-to-region associator
(`clusterLidarWithROI`, lines 13-59) -/

/-- The homogeneous coordinate vector `X = [x, y, z, 1]ᵗ` (lines 22-25). -/
def homogOf (p : LidarPoint) : Fin 4 → ℚ :=
  fun k => if k = 0 then p.x else if k = 1 then p.y else if k = 2 then p.z
           else 1

/-- 3x4 by 4x4 matrix product, written out entrywise. -/
def mul34x44 (A : Fin 3 → Fin 4 → ℚ) (B : Fin 4 → Fin 4 → ℚ) :
    Fin 3 → Fin 4 → ℚ :=
  fun i j => A i 0 * B 0 j + A i 1 * B 1 j + A i 2 * B 2 j + A i 3 * B 3 j

/-- 3x4 matrix times 4-vector. -/
def mulMV34 (A : Fin 3 → Fin 4 → ℚ) (v : Fin 4 → ℚ) : Fin 3 → ℚ :=
  fun i => A i 0 * v 0 + A i 1 * v 1 + A i 2 * v 2 + A i 3 * v 3

/-- 4x4 matrix times 4-vector. -/
def mulMV44 (A : Fin 4 → Fin 4 → ℚ) (v : Fin 4 → ℚ) : Fin 4 → ℚ :=
  fun i => A i 0 * v 0 + A i 1 * v 1 + A i 2 * v 2 + A i 3 * v 3

/-- Line 28: `Y = P_rect_xx * R_rect_xx * RT * X`, associated left to
right as C++ evaluates it (matrix-matrix products first, then the
vector). -/
def projectY (P : Fin 3 → Fin 4 → ℚ) (R RT : Fin 4 → Fin 4 → ℚ)
    (p : LidarPoint) : Fin 3 → ℚ :=
  mulMV34 (mul34x44 (mul34x44 P R) RT) (homogOf p)

/-- Lines 29-31: the projected pixel.  `Y.at<double>(0, 2)` on the
contiguous 3x1 matrix `Y` reads the element at flat offset 2 — the third
(homogeneous depth) component — so both coordinates divide by `Y 2`; the
quotients are then stored in an integer `cv::Point`, truncating toward
zero. -/
def projectPixel (P : Fin 3 → Fin 4 → ℚ) (R RT : Fin 4 → Fin 4 → ℚ)
    (p : LidarPoint) : ℤ × ℤ :=
  let Y := projectY P R RT p
  (truncQ (Y 0 / Y 2), truncQ (Y 1 / Y 2))

/-- The homogeneous product as the specification words it:
`Projection · Rectification · Transform · [x,y,z,1]ᵗ`, associated right to
left. -/
def specHomogProduct (P : Fin 3 → Fin 4 → ℚ) (R RT : Fin 4 → Fin 4 → ℚ)
    (p : LidarPoint) : Fin 3 → ℚ :=
  mulMV34 P (mulMV44 R (mulMV44 RT (homogOf p)))

/-- Lines 37-41: the shrunk rectangle; each float expression is truncated
by the assignment to the integer `cv::Rect` fields. -/
def shrinkRect (r : Rect) (f : ℚ) : Rect :=
  { x := truncQ ((r.x : ℚ) + f * (r.width : ℚ) / 2),
    y := truncQ ((r.y : ℚ) + f * (r.height : ℚ) / 2),
    width := truncQ ((r.width : ℚ) * (1 - f)),
    height := truncQ ((r.height : ℚ) * (1 - f)) }

/-- `cv::Rect::contains` for the integer pixel (line 44). -/
def rectContainsPix (r : Rect) (pix : ℤ × ℤ) : Bool :=
  decide (r.x ≤ pix.1) && decide (pix.1 < r.x + r.width) &&
    decide (r.y ≤ pix.2) && decide (pix.2 < r.y + r.height)

/-- `enclosingBoxes.size()`: how many boxes' shrunk rectangles enclose the
pixel. -/
def enclosingCount (boxes : List BoundingBox) (f : ℚ) (pix : ℤ × ℤ) :
    Nat :=
  boxes.countP (fun b => rectContainsPix (shrinkRect b.roi f) pix)

/-- The condition under which a point projected to `pix` is appended to a
box with the given ROI: that box's shrunk rectangle encloses the pixel and
it is the only box that does. -/
def assignedPred (boxes : List BoundingBox) (f : ℚ) (roi : Rect)
    (pix : ℤ × ℤ) : Bool :=
  rectContainsPix (shrinkRect roi f) pix &&
    decide (enclosingCount boxes f pix = 1)

/-- Lines 33-56 for one Lidar point: if exactly one box's shrunk rectangle
encloses the projected pixel, append the point to that box
(`enclosingBoxes[0]`). -/
def addPointToBoxes (boxes : List BoundingBox) (f : ℚ) (p : LidarPoint)
    (pix : ℤ × ℤ) : List BoundingBox :=
  if enclosingCount boxes f pix = 1 then
    boxes.map (fun b =>
      if rectContainsPix (shrinkRect b.roi f) pix then
        { b with lidarPoints := b.lidarPoints ++ [p] }
      else b)
  else boxes

/-- `clusterLidarWithROI` (lines 13-59). -/
def clusterLidarWithROI (boxes : List BoundingBox) (pts : List LidarPoint)
    (f : ℚ) (P : Fin 3 → Fin 4 → ℚ) (R RT : Fin 4 → Fin 4 → ℚ) :
    List BoundingBox :=
  pts.foldl (fun bs p => addPointToBoxes bs f p (projectPixel P R RT p))
    boxes

/-- C9 fixture: a projection matrix selecting x, y, z. -/
def c9P : Fin 3 → Fin 4 → ℚ :=
  fun i j => if (i : Nat) = (j : Nat) then 1 else 0

/-- C9 fixture: the 4x4 identity for rectification and transform. -/
def c9Id4 : Fin 4 → Fin 4 → ℚ := fun i j => if i = j then 1 else 0

/-- C9 fixture: a point at depth 2 with unit lateral offset, whose exact
pixel x-coordinate is 1/2. -/
def c9Point : LidarPoint := ⟨1, 0, 2, 0⟩

/-! ## Range clustering and range TTC estimator (`clustering` and
`computeTTCLidar`, lines 230-311) -/

/-- Squared 3D distance between two range points. -/
def sqDist3 (p q : LidarPoint) : ℚ :=
  (p.x - q.x) ^ 2 + (p.y - q.y) ^ 2 + (p.z - q.z) ^ 2

/-- The neighbourhood test of the Euclidean clustering: within the cluster
tolerance (compared on squared distances, which is equivalent). -/
def nearPt (tol : ℚ) (p q : LidarPoint) : Bool :=
  decide (sqDist3 p q ≤ tol * tol)

/-- Modelled from the spec: the cluster-growing step of the PCL
`EuclideanClusterExtraction` used at lines 241-251 (the library call is
not part of this repository) — a cluster is the set of points reachable
from a seed through chains of neighbours within the tolerance.  Each fuel
step moves every point adjacent to the current cluster into it; the fuel
(number of remaining points) bounds the number of rounds. -/
def growCluster (tol : ℚ) :
    Nat → List LidarPoint → List LidarPoint →
      List LidarPoint × List LidarPoint
  | 0, cluster, rest => (cluster, rest)
  | fuel + 1, cluster, rest =>
      let parts := rest.partition (fun p => cluster.any (fun c => nearPt tol p c))
      if parts.1.isEmpty then (cluster, rest)
      else growCluster tol fuel (cluster ++ parts.1) parts.2

/-- Modelled from the spec: the cluster list produced by the PCL Euclidean
cluster extraction — repeatedly grow a maximal density-connected cluster
from the first remaining point. -/
def extractClusters (tol : ℚ) :
    Nat → List LidarPoint → List (List LidarPoint)
  | 0, _ => []
  | _, [] => []
  | fuel + 1, p :: rest =>
      let grown := growCluster tol rest.length [p] rest
      grown.1 :: extractClusters tol fuel grown.2

/-- `clustering` (lines 230-269): keep the clusters whose size lies within
[minSize, maxSize], flattened to one point collection. -/
def clustering (pts : List LidarPoint) (tol : ℚ) (minSize maxSize : Nat) :
    List LidarPoint :=
  ((extractClusters tol pts.length pts).filter
      (fun c => decide (minSize ≤ c.length) && decide (c.length ≤ maxSize))).flatten

/-- Lane membership (lines 289, 297): `fabs(y) < laneWidht / 2.0` with the
assumed lane width 4.0. -/
def inLane (p : LidarPoint) : Bool := decide (|p.y| < 2)

/-- The sentinel-initialised minimum forward distance over the in-lane
points (lines 279-301). -/
def minXInLane (pts : List LidarPoint) : ℚ :=
  pts.foldl
    (fun mx p => if inLane p then (if mx > p.x then p.x else mx) else mx)
    (10 ^ 9)

/-- IEEE division for the final `TTC = minXCurr / ((minXPrev - minXCurr) /
dt)` at line 304: a zero denominator yields +-infinity or NaN according to
the sign of the numerator. -/
def ieeeDiv (num den : ℚ) : TTCVal :=
  if den = 0 then
    if num > 0 then TTCVal.inf
    else if num < 0 then TTCVal.ninf
    else TTCVal.nan
  else TTCVal.val (num / den)

/-- `computeTTCLidar` (lines 271-311): cluster both frames (tolerance
0.05, min size 30, max size 25000), take the in-lane minima, and apply the
constant-velocity formula. -/
def computeTTCLidar (lidarPointsPrev lidarPointsCurr : List LidarPoint)
    (frameRate : ℚ) : TTCVal :=
  let dt := 1 / frameRate
  let minXPrev := minXInLane (clustering lidarPointsPrev (1 / 20) 30 25000)
  let minXCurr := minXInLane (clustering lidarPointsCurr (1 / 20) 30 25000)
  ieeeDiv minXCurr ((minXPrev - minXCurr) / dt)

/-- C8 fixture: the spec example's previous frame (x = 10.0, 10.2,
10.1). -/
def c8Prev3 : List LidarPoint :=
  [⟨10, 0, 0, 0⟩, ⟨51 / 5, 0, 0, 0⟩, ⟨101 / 10, 0, 0, 0⟩]

/-- C8 fixture: the spec example's current frame (x = 9.0, 9.1, 9.05). -/
def c8Curr3 : List LidarPoint :=
  [⟨9, 0, 0, 0⟩, ⟨91 / 10, 0, 0, 0⟩, ⟨181 / 20, 0, 0, 0⟩]

/-- C8 fixture: the same previous-frame x-values, each carried by a
30-point cluster; the lateral offsets keep the clusters separated and in
lane. -/
def c8Prev90 : List LidarPoint :=
  List.replicate 30 ⟨10, 0, 0, 0⟩ ++ List.replicate 30 ⟨51 / 5, 1, 0, 0⟩ ++
    List.replicate 30 ⟨101 / 10, -1, 0, 0⟩

/-- C8 fixture: the same current-frame x-values, each carried by a
30-point cluster. -/
def c8Curr90 : List LidarPoint :=
  List.replicate 30 ⟨9, 0, 0, 0⟩ ++ List.replicate 30 ⟨91 / 10, 1, 0, 0⟩ ++
    List.replicate 30 ⟨181 / 20, -1, 0, 0⟩

/-- C8 witness fixture: one 31-point cluster at x = 5. -/
def c8Cluster31 : List LidarPoint := List.replicate 31 ⟨5, 0, 0, 0⟩

/-- C8 witness fixture: one 31-point cluster at x = 7. -/
def c8Cluster31b : List LidarPoint := List.replicate 31 ⟨7, 0, 0, 0⟩

end TrackingCore

namespace TrackingCore

/-! ## Theorems about the camera TTC estimator -/

/-- A successful `pushQuot` step appends exactly the recorded ratio of its
index pair (none, if the pair is filtered out). -/
theorem pushQuot_some (kp kc : List KeyPt) (ms : List Match) (i j : Nat)
    (acc acc2 : List ℚ) (h : pushQuot kp kc ms i j acc = some acc2) :
    acc2 = acc ++ (pairRecord kp kc ms (i, j)).toList := by
  unfold pushQuot at h
  unfold pairRecord
  cases hm1 : ms[i]? with
  | none => simp [hm1] at h
  | some a =>
    cases hm2 : ms[j]? with
    | none => simp [hm1, hm2] at h
    | some b =>
      simp only [hm1, hm2, Option.bind_eq_bind, Option.some_bind] at h ⊢
      cases hq : pairQuot kp kc a b with
      | none => simp [hq] at h
      | some o =>
        cases o with
        | none => simp [hq] at h; simp [h]
        | some r => simp [hq] at h; simp [← h]

/-- Folding `pushQuot` over a list of index pairs appends exactly the
ratios recorded for those pairs, in order. -/
theorem foldlM_pushQuot_eq (kp kc : List KeyPt) (ms : List Match) :
    ∀ (l : List (Nat × Nat)) (acc rs : List ℚ),
      l.foldlM (fun acc2 ij => pushQuot kp kc ms ij.1 ij.2 acc2) acc =
          some rs →
      rs = acc ++ l.filterMap (pairRecord kp kc ms)
  | [], acc, rs, h => by
    simp only [List.foldlM_nil, pure, Option.some.injEq] at h
    simp [← h]
  | ij :: l, acc, rs, h => by
    simp only [List.foldlM_cons] at h
    cases hp : pushQuot kp kc ms ij.1 ij.2 acc with
    | none => rw [hp] at h; simp at h
    | some acc2 =>
      rw [hp] at h
      simp only [Option.bind_eq_bind, Option.some_bind] at h
      have hrec := foldlM_pushQuot_eq kp kc ms l acc2 rs h
      have hstep := pushQuot_some kp kc ms ij.1 ij.2 acc acc2 hp
      subst hstep
      rw [hrec, List.filterMap_cons, List.append_assoc]
      cases hr : pairRecord kp kc ms ij <;> simp [hr]

/-- Folding the inner loop for each outer position equals one fold over the
flattened ordered-pair list. -/
theorem foldlM_pushQuot_flat (kp kc : List KeyPt) (ms : List Match)
    (inner : List Nat) :
    ∀ (outer : List Nat) (acc : List ℚ),
      outer.foldlM
          (fun acc i =>
            (inner.map (· + 1)).foldlM
              (fun acc2 j => pushQuot kp kc ms i j acc2) acc)
          acc =
        (outer.flatMap (fun i => inner.map (fun j => (i, j + 1)))).foldlM
          (fun acc2 ij => pushQuot kp kc ms ij.1 ij.2 acc2) acc
  | [], acc => by simp
  | i :: outer, acc => by
    simp only [List.foldlM_cons, List.flatMap_cons, List.foldlM_append,
      List.foldlM_map]
    cases hinner :
        inner.foldlM (fun acc2 j => pushQuot kp kc ms i (j + 1) acc2) acc with
    | none => simp
    | some acc2 =>
      simp only [Option.bind_eq_bind, Option.some_bind]
      simpa only [List.foldlM_map] using
        foldlM_pushQuot_flat kp kc ms inner outer acc2

/-- C5 (amended): on a run with no out-of-range access, the recorded ratio
collection contains, in order, one entry for every ordered index pair
`(i, j)` with `i` in `0 .. n-2` and `j` in `1 .. n-1` that passes the
thresholds — the inner iterator restarts at the second match independently
of the outer one, so an unordered pair whose both orderings lie in that
index range contributes twice. -/
theorem distQuotList_records_ordered_pairs (kp kc : List KeyPt)
    (ms : List Match) (rs : List ℚ) (h : distQuotList kp kc ms = some rs) :
    rs = (orderedPairIdx ms.length).filterMap (pairRecord kp kc ms) := by
  match ms, h with
  | m :: ms2, h =>
    unfold distQuotList at h
    rw [foldlM_pushQuot_flat kp kc (m :: ms2) (List.range ((m :: ms2).length - 1))] at h
    have := foldlM_pushQuot_eq kp kc (m :: ms2) _ [] rs h
    rw [this]
    rfl

/-- Witness for `distQuotList_records_ordered_pairs` at the C5 fixture. -/
theorem distQuotList_records_ordered_pairs_witness :
    ([2, 2, 2, 2, 2, 2, 2] : List ℚ) =
      (orderedPairIdx c5Matches.length).filterMap
        (pairRecord c5PrevKpts c5CurrKpts c5Matches) :=
  distQuotList_records_ordered_pairs c5PrevKpts c5CurrKpts c5Matches
    [2, 2, 2, 2, 2, 2, 2] (by with_unfolding_all decide)

/-- C5 (counterexample): with four matches on the x-axis all of whose pairs
pass the thresholds, the code records 7 ratios although only 6 unordered
pairs of distinct matches survive — the unordered pair of the second and
third match is recorded twice, refuting "no surviving unordered pair
contributes more than one ratio". -/
theorem distQuotList_duplicate_unordered_pair :
    distQuotList c5PrevKpts c5CurrKpts c5Matches =
        some [2, 2, 2, 2, 2, 2, 2] ∧
      specSurvivorPairCount c5PrevKpts c5CurrKpts c5Matches = 6 ∧
      ([2, 2, 2, 2, 2, 2, 2] : List ℚ).length = 7 := by
  with_unfolding_all decide

/-- C1: the selection of lines 216-218 is not the median: it tests the
parity of `medianIdx = floor(size/2)` instead of the parity of the size.
For the sorted ratios `[2, 4]` it returns `4` where the median is `3`; for
`[1, 2, 3, 4, 5]` it returns `5/2` where the median is `3`; for a single
ratio it reads `distRatios[-1]`, out of bounds. -/
theorem medianSelect_deviates_from_spec_median :
    medianSelect [2, 4] = some 4 ∧ specMedian [2, 4] = some 3 ∧
      medianSelect [1, 2, 3, 4, 5] = some (5 / 2) ∧
      specMedian [1, 2, 3, 4, 5] = some 3 ∧
      medianSelect [2] = none ∧ specMedian [2] = some 2 := by
  with_unfolding_all decide

/-- C6: at a concrete input with surviving ratios `[2, 4]` (median `3`) and
`frameRate = 1`, the code returns `-dT / (1 - 4) = 1/3`, not the claimed
`-dT / (1 - medianRatio) = -1 / (1 - 3) = 1/2`: the value plugged into the
formula is not the median of the recorded ratios. -/
theorem computeTTCCamera_formula_uses_wrong_median :
    computeTTCCamera c6PrevKpts c6CurrKpts c6Matches 1 =
        some (TTCVal.val (1 / 3)) ∧
      distQuotList c6PrevKpts c6CurrKpts c6Matches = some [2, 4] ∧
      specMedian (List.insertionSort (fun a b => a ≤ b) [2, 4]) = some 3 ∧
      TTCVal.val (1 / 3) ≠ TTCVal.val (-1 / (1 - 3)) := by
  with_unfolding_all decide

/-- C10: an empty match list makes `kptMatches.end() - 1` underflow and the
first dereference is undefined behaviour (`none`); a one-element match list
enumerates no pair, records no ratio, and yields the `NAN` sentinel. -/
theorem computeTTCCamera_degenerate_match_lists (kp kc : List KeyPt)
    (fr : ℚ) (m : Match) :
    computeTTCCamera kp kc [m] fr = some TTCVal.nan ∧
      distQuotList kp kc [m] = some [] ∧
      distQuotList kp kc [] = none ∧
      computeTTCCamera kp kc [] fr = none :=
  ⟨rfl, rfl, rfl, rfl⟩

end TrackingCore

namespace TrackingCore

/-! ## Theorems about the keypoint-match region filter -/

/-- Bounded-measure version of the statement that the erase loop never
terminates normally: from any position `i ≤ length` it reaches the end
iterator and dereferences it (or throws on a bad index first). -/
theorem erasePass_none_of_le (kp kc : List KeyPt) (mean : Option ℚ) :
    ∀ (n : Nat) (ms : List Match) (i : Nat),
      ms.length - i + ms.length ≤ n → i ≤ ms.length →
      erasePass kp kc mean ms i = none := by
  intro n
  induction n with
  | zero =>
    intro ms i hn hle
    have hlen : ms.length = 0 := by omega
    have hi : i = 0 := by omega
    unfold erasePass
    rw [dif_neg (by omega)]
    rw [if_pos (by omega)]
  | succ n ih =>
    intro ms i hn hle
    unfold erasePass
    by_cases h : i < ms.length
    · rw [dif_pos h]
      cases matchDistance kp kc (ms.get ⟨i, h⟩) with
      | none => rfl
      | some d =>
        cases mean with
        | some mv =>
          show (if mv * (3 / 2) ≤ d then
                  erasePass kp kc (some mv) (ms.eraseIdx i) i
                else erasePass kp kc (some mv) ms (i + 1)) = none
          by_cases hc : mv * (3 / 2) ≤ d
          · rw [if_pos hc]
            have he : (ms.eraseIdx i).length = ms.length - 1 := by
              rw [List.length_eraseIdx]; simp [h]
            exact ih (ms.eraseIdx i) i (by omega) (by omega)
          · rw [if_neg hc]
            exact ih ms (i + 1) (by omega) (by omega)
        | none => exact ih ms (i + 1) (by omega) (by omega)
    · rw [dif_neg h]
      rw [if_pos (by omega)]

/-- C3: the outlier-erase loop of lines 154-168 is bounded by
`it <= kptMatches.end()`, so on every input — whatever the mean, the match
collection, or the keypoint lists — it dereferences the end iterator (an
out-of-bounds read) or throws on a bad index before it can exit; it never
completes normally with the filtered collection. -/
theorem erasePass_always_reads_past_end (kp kc : List KeyPt)
    (mean : Option ℚ) (ms : List Match) :
    erasePass kp kc mean ms 0 = none :=
  erasePass_none_of_le kp kc mean (ms.length + ms.length) ms 0
    (by omega) (Nat.zero_le _)

/-- C4: a region to which the membership pass assigns zero matches does
not short-circuit: the mean is computed as `0/0` (NaN, the inner `none`),
and the filter then enters the erase loop and fails on the end-iterator
dereference (`none`) instead of returning the empty collection. -/
theorem clusterKptMatches_zero_assigned_nan (box : BoundingBox)
    (kp kc : List KeyPt) (ms : List Match)
    (h : kptMatchesInROI box kc ms = some []) :
    meanMatchDistance kp kc [] = some none ∧
      clusterKptMatchesWithROI box kp kc ms = none := by
  refine ⟨rfl, ?_⟩
  unfold clusterKptMatchesWithROI
  rw [h]
  simp only [Option.bind_eq_bind, Option.some_bind]
  have : meanMatchDistance kp kc [] = some none := rfl
  rw [this]
  simp only [Option.some_bind]
  unfold erasePass
  rw [dif_neg (by simp)]
  simp

/-- Witness for `clusterKptMatches_zero_assigned_nan` at the C4 fixture:
one match whose current keypoint (50, 50) lies outside the ROI
(0, 0, 10, 10). -/
theorem clusterKptMatches_zero_assigned_nan_witness :
    meanMatchDistance c4PrevKpts c4CurrKpts [] = some none ∧
      clusterKptMatchesWithROI c4Box c4PrevKpts c4CurrKpts c4Matches =
        none :=
  clusterKptMatches_zero_assigned_nan c4Box c4PrevKpts c4CurrKpts c4Matches
    (by with_unfolding_all decide)

end TrackingCore

namespace TrackingCore

/-! ## Theorems about the region correspondence resolver -/

/-- If some previous-frame box in the remaining list has an empty vote
table, the per-box loop has no defined result, whatever was accumulated so
far. -/
theorem matchBoundingBoxesGo_none (mList : List Match)
    (currBoxes : List BoundingBox) (kpPrev kpCurr : List KeyPt)
    (pb : BoundingBox)
    (hv : votesForBox pb currBoxes kpPrev kpCurr mList = some []) :
    ∀ (l : List BoundingBox) (acc : List (ℤ × ℤ)), pb ∈ l →
      matchBoundingBoxesGo mList currBoxes kpPrev kpCurr acc l = none
  | [], acc, hmem => by simp at hmem
  | q :: rest, acc, hmem => by
    rcases List.mem_cons.mp hmem with h | h
    · subst h
      unfold matchBoundingBoxesGo
      rw [hv]
      rfl
    · unfold matchBoundingBoxesGo
      cases hq : votesForBox q currBoxes kpPrev kpCurr mList with
      | none => rfl
      | some m =>
        show (match firstMaxVote m with
              | none => none
              | some best =>
                  matchBoundingBoxesGo mList currBoxes kpPrev kpCurr
                    (bestInsert acc q.boxID best) rest) = none
        cases hfm : firstMaxVote m with
        | none => rfl
        | some best =>
          exact matchBoundingBoxesGo_none mList currBoxes kpPrev kpCurr
            pb hv rest (bestInsert acc q.boxID best) h

/-- C2: a previous-frame region with zero correspondence votes does not
produce "no map entry": line 349 takes `max_element` of the empty vote map
and line 350 dereferences the resulting end iterator, so the whole call is
undefined behaviour (`none`) — it neither skips the region nor returns a
map whose keys are the voted regions. -/
theorem matchBoundingBoxes_zero_votes_ub (mList : List Match)
    (prevBoxes currBoxes : List BoundingBox) (kpPrev kpCurr : List KeyPt)
    (pb : BoundingBox) (hmem : pb ∈ prevBoxes)
    (hv : votesForBox pb currBoxes kpPrev kpCurr mList = some []) :
    matchBoundingBoxes mList prevBoxes currBoxes kpPrev kpCurr = none :=
  matchBoundingBoxesGo_none mList currBoxes kpPrev kpCurr pb hv
    prevBoxes [] hmem

/-- Witness for `matchBoundingBoxes_zero_votes_ub`: one previous-frame box
and no matches at all, so its vote table is empty. -/
theorem matchBoundingBoxes_zero_votes_ub_witness :
    matchBoundingBoxes [] [c2Box] [] [] [] = none :=
  matchBoundingBoxes_zero_votes_ub [] [c2Box] [] [] [] c2Box
    (List.mem_singleton.mpr rfl) rfl

end TrackingCore

namespace TrackingCore

set_option maxRecDepth 100000

/-! ## Theorems about the projector and the range-to-region associator -/

/-- Rebuilding a box from its own fields is the identity. -/
theorem boxEta (b : BoundingBox) :
    { b with lidarPoints := b.lidarPoints } = b := rfl

/-- Appending a point to a box never changes which shrunk rectangles
enclose a pixel, so the enclosing count is stable under the per-point
update. -/
theorem enclosingCount_addPointToBoxes (bs : List BoundingBox) (f : ℚ)
    (p : LidarPoint) (pix q : ℤ × ℤ) :
    enclosingCount (addPointToBoxes bs f p pix) f q =
      enclosingCount bs f q := by
  unfold addPointToBoxes
  split
  · unfold enclosingCount
    rw [List.countP_map]
    apply List.countP_congr
    intro b _
    by_cases hb : rectContainsPix (shrinkRect b.roi f) pix <;>
      simp [hb, Function.comp]
  · rfl

/-- The per-point update rewrites every box by the assignment predicate. -/
theorem addPointToBoxes_eq_map (bs : List BoundingBox) (f : ℚ)
    (p : LidarPoint) (pix : ℤ × ℤ) :
    addPointToBoxes bs f p pix =
      bs.map (fun b =>
        if assignedPred bs f b.roi pix then
          { b with lidarPoints := b.lidarPoints ++ [p] }
        else b) := by
  unfold addPointToBoxes assignedPred
  by_cases hc : enclosingCount bs f pix = 1
  · rw [if_pos hc]
    apply List.map_congr_left
    intro b _
    simp [hc]
  · rw [if_neg hc]
    conv_rhs => rw [show (fun b : BoundingBox =>
        if (rectContainsPix (shrinkRect b.roi f) pix &&
            decide (enclosingCount bs f pix = 1)) = true then
          { b with lidarPoints := b.lidarPoints ++ [p] }
        else b) = fun b => b by funext b; simp [hc]]
    rw [List.map_id']

/-- C7: the associator appends a range point to a region's collection if
and only if the point's projected pixel lies inside that region's shrunk
rectangle and inside no other's — every region's final collection is its
initial collection followed by exactly the points assigned to it by this
exactly-one rule, and ambiguous or unenclosed points are assigned to no
region. -/
theorem clusterLidarWithROI_assigns_unique_region (f : ℚ)
    (P : Fin 3 → Fin 4 → ℚ) (R RT : Fin 4 → Fin 4 → ℚ) :
    ∀ (pts : List LidarPoint) (boxes : List BoundingBox),
      clusterLidarWithROI boxes pts f P R RT =
        boxes.map (fun b =>
          { b with lidarPoints := (b.lidarPoints ++
              pts.filter
                (fun p => assignedPred boxes f b.roi (projectPixel P R RT p))) })
  | [], boxes => by
    simp only [clusterLidarWithROI, List.foldl_nil, List.filter_nil,
      List.append_nil, boxEta, List.map_id']
  | p :: rest, boxes => by
    have hstep : clusterLidarWithROI boxes (p :: rest) f P R RT =
        clusterLidarWithROI (addPointToBoxes boxes f p (projectPixel P R RT p))
          rest f P R RT := rfl
    rw [hstep,
      clusterLidarWithROI_assigns_unique_region f P R RT rest
        (addPointToBoxes boxes f p (projectPixel P R RT p))]
    have hpred : ∀ (roi : Rect) (q : ℤ × ℤ),
        assignedPred (addPointToBoxes boxes f p (projectPixel P R RT p)) f
            roi q =
          assignedPred boxes f roi q := by
      intro roi q
      unfold assignedPred
      rw [enclosingCount_addPointToBoxes]
    simp only [hpred]
    rw [addPointToBoxes_eq_map, List.map_map]
    apply List.map_congr_left
    intro b _
    by_cases hp : assignedPred boxes f b.roi (projectPixel P R RT p)
    · simp [Function.comp, hp, List.filter_cons, List.append_assoc]
    · simp [Function.comp, hp, List.filter_cons]

/-- C9 (amended): for every range point the projector's output pixel
equals the toward-zero integer truncation of the first two components of
the homogeneous product Projection · Rectification · Transform ·
[x,y,z,1]ᵗ, each divided by the third (index 2) component of that product
— the same homogeneous depth denominator for both coordinates. -/
theorem projectPixel_eq_truncated_homog (P : Fin 3 → Fin 4 → ℚ)
    (R RT : Fin 4 → Fin 4 → ℚ) (p : LidarPoint) :
    projectPixel P R RT p =
      (truncQ (specHomogProduct P R RT p 0 / specHomogProduct P R RT p 2),
       truncQ (specHomogProduct P R RT p 1 / specHomogProduct P R RT p 2)) := by
  have hY : ∀ i, projectY P R RT p i = specHomogProduct P R RT p i := by
    intro i
    simp only [projectY, specHomogProduct, mulMV34, mulMV44, mul34x44]
    ring
  show (truncQ (projectY P R RT p 0 / projectY P R RT p 2),
        truncQ (projectY P R RT p 1 / projectY P R RT p 2)) = _
  rw [hY 0, hY 1, hY 2]

/-- C9 (counterexample): with the x-y-z-selecting projection, identity
rectification and transform, and the point (1, 0, 2), the exact quotient
for the pixel x-coordinate is 1/2, but the stored integer pixel is (0, 0):
the output pixel does not equal the quotient itself. -/
theorem projectPixel_truncation_cex :
    projectPixel c9P c9Id4 c9Id4 c9Point = (0, 0) ∧
      specHomogProduct c9P c9Id4 c9Id4 c9Point 0 /
          specHomogProduct c9P c9Id4 c9Id4 c9Point 2 = 1 / 2 ∧
      ((0 : ℚ) ≠ 1 / 2) := by
  with_unfolding_all decide

/-! ## Theorems about the range TTC estimator -/

/-- C8 (counterexample): on the spec example's three-point frames, the
clustering stage (minimum cluster size 30) discards every point, both
minima stay at the 1e9 sentinel, and the returned TTC is +infinity
(1e9 divided by zero), not the claimed 0.9 seconds. -/
theorem computeTTCLidar_three_point_example :
    computeTTCLidar c8Prev3 c8Curr3 10 = TTCVal.inf ∧
      TTCVal.inf ≠ TTCVal.val (9 / 10) := by
  with_unfolding_all decide

/-- C8 (amended): the estimator clusters each frame (tolerance 0.05, sizes
30 to 25000), restricts to |y| < 2.0, takes the sentinel-initialised
minimum x per frame, and — whenever the two minima differ and the frame
rate is nonzero — returns minXCurr / ((minXPrev - minXCurr) · frameRate);
the spec's three-point example survives only if each point is carried by a
cluster of at least 30 points, in which case 0.9 seconds results at
10 Hz. -/
theorem computeTTCLidar_formula_and_clustered_example :
    (∀ (prev curr : List LidarPoint) (fr : ℚ), fr ≠ 0 →
        minXInLane (clustering prev (1 / 20) 30 25000) ≠
          minXInLane (clustering curr (1 / 20) 30 25000) →
        computeTTCLidar prev curr fr =
          TTCVal.val (minXInLane (clustering curr (1 / 20) 30 25000) /
            ((minXInLane (clustering prev (1 / 20) 30 25000) -
              minXInLane (clustering curr (1 / 20) 30 25000)) * fr))) ∧
      computeTTCLidar c8Prev90 c8Curr90 10 = TTCVal.val (9 / 10) := by
  constructor
  · intro prev curr fr hfr hne
    show ieeeDiv (minXInLane (clustering curr (1 / 20) 30 25000))
        ((minXInLane (clustering prev (1 / 20) 30 25000) -
          minXInLane (clustering curr (1 / 20) 30 25000)) / (1 / fr)) = _
    rw [div_div_eq_mul_div, div_one]
    unfold ieeeDiv
    rw [if_neg (mul_ne_zero (sub_ne_zero.mpr hne) hfr)]
  · with_unfolding_all decide

/-- Witness for `computeTTCLidar_formula_and_clustered_example`: a
31-point cluster at x = 7 against a 31-point cluster at x = 5, frame rate
1 Hz: TTC = 5 / ((7 - 5) * 1) = 5/2 seconds. -/
theorem computeTTCLidar_formula_and_clustered_example_witness :
    computeTTCLidar c8Cluster31b c8Cluster31 1 =
      TTCVal.val ((5 : ℚ) / ((7 - 5) * 1)) := by
  have h := computeTTCLidar_formula_and_clustered_example.1 c8Cluster31b
    c8Cluster31 1 (by norm_num) (by with_unfolding_all decide)
  rw [h]
  with_unfolding_all decide

end TrackingCore
